import Mathlib

-- Verification development for the anytokin/age-gender-predictions repository
-- (src/utils.py).  The Python source is shallowly embedded: file names and
-- message texts are lists of characters, the AWS clients are modelled by
-- explicit response data carried in an environment record, and the two
-- unbounded while-loops are modelled with an explicit fuel argument whose
-- exhaustion stands for "the loop is still running after that many
-- iterations".

-- ## Python string helpers
-- `s.split(sep)` for a one-character separator, exactly as in Python:
-- the empty string splits to `[""]`, separators at the ends produce empty
-- components, and the result is never the empty list.

def pySplit (sep : Char) : List Char → List (List Char)
  | [] => [[]]
  | c :: cs =>
    if c = sep then [] :: pySplit sep cs
    else
      match pySplit sep cs with
      | [] => [[c]]
      | w :: ws => (c :: w) :: ws

-- Python's `l[-1]` on a non-empty list (with a default for the empty one).
def pyLast {α : Type} (d : α) : List α → α
  | [] => d
  | [a] => a
  | _ :: b :: l => pyLast d (b :: l)

-- `s.split(sep)[0]` in Python.
def pyFirstComp (sep : Char) (s : List Char) : List Char :=
  (pySplit sep s).headD []

-- `s.split(sep)[-1]` in Python.
def pyLastComp (sep : Char) (s : List Char) : List Char :=
  pyLast [] (pySplit sep s)

-- The specification side of claim C2: the substring of a file name before
-- its first '.' character (the whole name when there is no dot).
def specStem (s : List Char) : List Char :=
  s.takeWhile (fun c => !(decide (c = '.')))

-- The specification side of claim C5: the trailing component of a path,
-- i.e. everything after the last occurrence of the path separator.
def baseName (sep : Char) (s : List Char) : List Char :=
  (s.reverse.takeWhile (fun c => !(decide (c = sep)))).reverse

-- The separator the source splits upload keys on (`file.split("\\")[-1]`).
def pathSep : Char := '\\'

-- ## The bucket-error diagnostic token
-- `re.findall(r'\((\w+)\)', msg)[0]`: the first parenthesized run of word
-- characters in `msg`, or `none` when there is no match (in which case the
-- subscript `[0]` raises an IndexError in the source).

def isWordChar (c : Char) : Bool := c.isAlphanum || decide (c = '_')

def findToken : List Char → Option (List Char)
  | [] => none
  | c :: rest =>
    if c = '(' then
      match rest.takeWhile isWordChar, rest.dropWhile isWordChar with
      | [], _ => findToken rest
      | w, ')' :: _ => some w
      | _, _ => findToken rest
    else findToken rest

-- ## Helper lemmas

theorem pySplit_cons_sep (sep : Char) (cs : List Char) :
    pySplit sep (sep :: cs) = [] :: pySplit sep cs := by
  simp [pySplit]

theorem pySplit_ne_nil (sep : Char) (s : List Char) : pySplit sep s ≠ [] := by
  cases s with
  | nil => simp [pySplit]
  | cons c cs =>
    simp only [pySplit]
    split
    · simp
    · split <;> simp

theorem pySplit_cons_ne (sep c : Char) (cs : List Char) (hc : ¬ c = sep)
    {w : List Char} {ws : List (List Char)} (hsp : pySplit sep cs = w :: ws) :
    pySplit sep (c :: cs) = (c :: w) :: ws := by
  simp [pySplit, hc, hsp]

theorem pySplit_of_not_mem (sep : Char) :
    ∀ s : List Char, sep ∉ s → pySplit sep s = [s] := by
  intro s
  induction s with
  | nil => intro _; rfl
  | cons c cs ih =>
    intro h
    have hc : ¬ c = sep := by
      intro hc; exact h (by simp [hc])
    have hcs : sep ∉ cs := by
      intro hm; exact h (List.mem_cons_of_mem _ hm)
    rw [pySplit_cons_ne sep c cs hc (ih hcs)]

theorem pySplit_two_le_of_mem (sep : Char) :
    ∀ s : List Char, sep ∈ s → 2 ≤ (pySplit sep s).length := by
  intro s
  induction s with
  | nil => intro h; cases h
  | cons c cs ih =>
    intro h
    by_cases hc : c = sep
    · rw [hc, pySplit_cons_sep, List.length_cons]
      have hne := pySplit_ne_nil sep cs
      have h1 : 1 ≤ (pySplit sep cs).length := by
        cases hcs : pySplit sep cs with
        | nil => exact absurd hcs hne
        | cons a l => simp
      omega
    · have hcs : sep ∈ cs := by
        cases h with
        | head => exact absurd rfl hc
        | tail _ hm => exact hm
      have h2 := ih hcs
      cases hsp : pySplit sep cs with
      | nil => exact absurd hsp (pySplit_ne_nil sep cs)
      | cons w ws =>
        rw [pySplit_cons_ne sep c cs hc hsp]
        rw [hsp] at h2
        simpa using h2

theorem takeWhile_of_all {α : Type} (p : α → Bool) :
    ∀ l : List α, (∀ a ∈ l, p a = true) → l.takeWhile p = l := by
  intro l
  induction l with
  | nil => intro _; rfl
  | cons a l ih =>
    intro h
    have ha : p a = true := h a (by simp)
    rw [List.takeWhile_cons, if_pos ha, ih (fun b hb => h b (by simp [hb]))]

theorem takeWhile_append_last_false {α : Type} (p : α → Bool) (x : α)
    (hx : p x = false) :
    ∀ l : List α, (l ++ [x]).takeWhile p = l.takeWhile p := by
  intro l
  induction l with
  | nil => simp [List.takeWhile_cons, hx]
  | cons a l ih =>
    rw [List.cons_append, List.takeWhile_cons, List.takeWhile_cons]
    cases hpa : p a
    · simp
    · simp [ih]

theorem takeWhile_append_all_true {α : Type} (p : α → Bool) (x : α)
    (hx : p x = true) :
    ∀ l : List α, (∀ a ∈ l, p a = true) → (l ++ [x]).takeWhile p = l ++ [x] := by
  intro l hl
  induction l with
  | nil => simp [List.takeWhile_cons, hx]
  | cons a l ih =>
    have ha : p a = true := hl a (by simp)
    rw [List.cons_append, List.takeWhile_cons, if_pos ha,
        ih (fun b hb => hl b (by simp [hb]))]

theorem takeWhile_append_stop {α : Type} {p : α → Bool} {x : α} :
    ∀ l : List α, (∃ a ∈ l, p a = false) →
      (l ++ [x]).takeWhile p = l.takeWhile p := by
  intro l
  induction l with
  | nil =>
    intro h
    obtain ⟨a, ha, _⟩ := h
    cases ha
  | cons a l ih =>
    intro h
    rw [List.cons_append, List.takeWhile_cons, List.takeWhile_cons]
    cases hpa : p a
    · simp
    · simp only [if_pos rfl]
      obtain ⟨b, hb, hpb⟩ := h
      have hbl : b ∈ l := by
        cases hb with
        | head => rw [hpa] at hpb; cases hpb
        | tail _ hm => exact hm
      rw [ih ⟨b, hbl, hpb⟩]

theorem pyLast_cons_cons {α : Type} (d a b : α) (l : List α) :
    pyLast d (a :: b :: l) = pyLast d (b :: l) := rfl

theorem pyLast_irrel {α : Type} (d₁ d₂ : α) :
    ∀ (l : List α) (a : α), pyLast d₁ (a :: l) = pyLast d₂ (a :: l) := by
  intro l
  induction l with
  | nil => intro a; rfl
  | cons b m ih =>
    intro a
    rw [pyLast_cons_cons, pyLast_cons_cons, ih b]

-- baseName ignores a leading separator.
theorem baseName_cons_sep (sep : Char) (cs : List Char) :
    baseName sep (sep :: cs) = baseName sep cs := by
  simp only [baseName, List.reverse_cons]
  rw [takeWhile_append_last_false _ sep (by simp) cs.reverse]

-- baseName of a separator-free string is the string itself.
theorem baseName_of_not_mem (sep : Char) (s : List Char) (h : sep ∉ s) :
    baseName sep s = s := by
  simp only [baseName]
  rw [takeWhile_of_all _ s.reverse
        (fun a ha => by
          simp only [Bool.not_eq_true', decide_eq_false_iff_not]
          intro hasep
          exact h (by rw [← hasep]; exact (List.mem_reverse).mp ha))]
  simp

-- baseName skips over a leading non-separator when a separator follows.
theorem baseName_cons_of_mem (sep c : Char) (cs : List Char)
    (hmem : sep ∈ cs) :
    baseName sep (c :: cs) = baseName sep cs := by
  simp only [baseName, List.reverse_cons]
  rw [takeWhile_append_stop cs.reverse ⟨sep, (List.mem_reverse).mpr hmem, by simp⟩]

-- `split(sep)[0]` is the substring before the first separator.
theorem pyFirstComp_eq_takeWhile (sep : Char) :
    ∀ s : List Char, pyFirstComp sep s = s.takeWhile (fun c => !(decide (c = sep))) := by
  intro s
  induction s with
  | nil => rfl
  | cons c cs ih =>
    by_cases hc : c = sep
    · rw [hc]
      simp only [pyFirstComp, pySplit_cons_sep, List.headD_cons, List.takeWhile_cons]
      simp
    · cases hsp : pySplit sep cs with
      | nil => exact absurd hsp (pySplit_ne_nil sep cs)
      | cons w ws =>
        simp only [pyFirstComp, pySplit_cons_ne sep c cs hc hsp, List.headD_cons,
          List.takeWhile_cons]
        have hcond : (!(decide (c = sep))) = true := by simp [hc]
        rw [if_pos hcond]
        simp only [pyFirstComp, hsp, List.headD_cons] at ih
        rw [ih]

-- `split(sep)[-1]` is the trailing component after the last separator.
theorem pyLastComp_eq_baseName (sep : Char) :
    ∀ s : List Char, pyLastComp sep s = baseName sep s := by
  intro s
  induction s with
  | nil => rfl
  | cons c cs ih =>
    by_cases hc : c = sep
    · rw [hc]
      simp only [pyLastComp, pySplit_cons_sep]
      cases hsp : pySplit sep cs with
      | nil => exact absurd hsp (pySplit_ne_nil sep cs)
      | cons w ws =>
        rw [pyLast_cons_cons, baseName_cons_sep]
        simp only [pyLastComp, hsp] at ih
        exact ih
    · cases hsp : pySplit sep cs with
      | nil => exact absurd hsp (pySplit_ne_nil sep cs)
      | cons w ws =>
        simp only [pyLastComp, pySplit_cons_ne sep c cs hc hsp]
        cases hws : ws with
        | nil =>
          have hnm : sep ∉ cs := by
            intro hm
            have h2 := pySplit_two_le_of_mem sep cs hm
            rw [hsp, hws] at h2
            simp at h2
          have hw : w = cs := by
            have heq := pySplit_of_not_mem sep cs hnm
            rw [hsp] at heq
            exact ((List.cons.injEq _ _ _ _).mp heq).1
          have hnm2 : sep ∉ c :: cs := by
            intro hm
            cases hm with
            | head => exact hc rfl
            | tail _ h2 => exact hnm h2
          rw [baseName_of_not_mem sep (c :: cs) hnm2, hw]
          rfl
        | cons w2 ws2 =>
          have hmem : sep ∈ cs := by
            by_contra hnm
            have heq := pySplit_of_not_mem sep cs hnm
            rw [hsp] at heq
            have : ws = [] := ((List.cons.injEq _ _ _ _).mp heq).2
            rw [hws] at this
            cases this
          rw [pyLast_cons_cons, baseName_cons_of_mem sep c cs hmem]
          simp only [pyLastComp, hsp] at ih
          rw [hws, pyLast_cons_cons] at ih
          exact ih

-- The trailing component never contains the separator.
theorem sep_not_mem_baseName (sep : Char) (s : List Char) :
    sep ∉ baseName sep s := by
  intro h
  simp only [baseName, List.mem_reverse] at h
  have := List.mem_takeWhile_imp h
  simp at this

-- ## JSON values and parsing
-- Model of the Python objects produced by `json.loads`, restricted to the
-- JSON subset relevant to transcript envelopes: objects, arrays, strings
-- with the simple escape sequences, integer numbers, booleans and null.
-- Objects carry their fields in insertion order with later duplicate keys
-- overwriting earlier ones, as Python dicts do.

inductive Json where
  | null : Json
  | bool (b : Bool) : Json
  | num (n : Int) : Json
  | str (s : List Char) : Json
  | arr (elems : List Json) : Json
  | obj (fields : List (List Char × Json)) : Json

-- Python-dict insertion: replace the value of an existing key in place,
-- otherwise append the new pair at the end.
def insertField (k : List Char) (v : Json) :
    List (List Char × Json) → List (List Char × Json)
  | [] => [(k, v)]
  | (k', v') :: rest =>
    if k' = k then (k', v) :: rest else (k', v') :: insertField k v rest

def jsonWs (c : Char) : Bool :=
  decide (c = ' ') || decide (c = '\t') || decide (c = '\n') || decide (c = '\r')

def skipWs (s : List Char) : List Char := s.dropWhile jsonWs

def digitVal (c : Char) : Nat := c.toNat - '0'.toNat

def readDigits : Nat → List Char → Nat × List Char
  | acc, [] => (acc, [])
  | acc, c :: cs =>
    if c.isDigit then readDigits (acc * 10 + digitVal c) cs else (acc, c :: cs)

def unescape (c : Char) : Option Char :=
  if c = '"' then some '"'
  else if c = '\\' then some '\\'
  else if c = '/' then some '/'
  else if c = 'n' then some '\n'
  else if c = 't' then some '\t'
  else if c = 'r' then some '\r'
  else if c = 'b' then some (Char.ofNat 8)
  else if c = 'f' then some (Char.ofNat 12)
  else none

-- The body of a JSON string, after the opening quote: returns the decoded
-- characters and the input remaining after the closing quote.
def readStringBody : List Char → Option (List Char × List Char)
  | [] => none
  | '"' :: rest => some ([], rest)
  | '\\' :: e :: rest =>
    match unescape e with
    | none => none
    | some c =>
      match readStringBody rest with
      | none => none
      | some (s, r) => some (c :: s, r)
  | c :: rest =>
    match readStringBody rest with
    | none => none
    | some (s, r) => some (c :: s, r)

-- A recursive-descent parser driven by a mode tag, structurally recursive
-- on a fuel argument so that it evaluates by kernel reduction.
inductive PMode where
  | val : PMode
  | objf : PMode
  | arre : PMode

def parseJ : Nat → PMode → List Char →
    List (List Char × Json) → List Json → Option (Json × List Char)
  | 0, _, _, _, _ => none
  | f + 1, PMode.val, s, _, _ =>
    match skipWs s with
    | [] => none
    | c :: rest =>
      if c = '\x7b' then
        match skipWs rest with
        | '\x7d' :: r2 => some (Json.obj [], r2)
        | _ => parseJ f PMode.objf rest [] []
      else if c = '[' then
        match skipWs rest with
        | ']' :: r2 => some (Json.arr [], r2)
        | _ => parseJ f PMode.arre rest [] []
      else if c = '"' then
        match readStringBody rest with
        | none => none
        | some (str, r) => some (Json.str str, r)
      else if c = '-' then
        match rest with
        | d :: ds =>
          if d.isDigit then
            let p := readDigits (digitVal d) ds
            some (Json.num (-(p.1 : Int)), p.2)
          else none
        | [] => none
      else if c.isDigit then
        let p := readDigits (digitVal c) rest
        some (Json.num (p.1 : Int), p.2)
      else if (c :: rest).take 4 = ['t', 'r', 'u', 'e'] then
        some (Json.bool true, (c :: rest).drop 4)
      else if (c :: rest).take 5 = ['f', 'a', 'l', 's', 'e'] then
        some (Json.bool false, (c :: rest).drop 5)
      else if (c :: rest).take 4 = ['n', 'u', 'l', 'l'] then
        some (Json.null, (c :: rest).drop 4)
      else none
  | f + 1, PMode.objf, s, accF, _ =>
    match skipWs s with
    | '"' :: r =>
      match readStringBody r with
      | none => none
      | some (k, r2) =>
        match skipWs r2 with
        | ':' :: r3 =>
          match parseJ f PMode.val r3 [] [] with
          | none => none
          | some (v, r4) =>
            match skipWs r4 with
            | ',' :: r5 => parseJ f PMode.objf r5 (insertField k v accF) []
            | '\x7d' :: r5 => some (Json.obj (insertField k v accF), r5)
            | _ => none
        | _ => none
    | _ => none
  | f + 1, PMode.arre, s, _, accA =>
    match parseJ f PMode.val s [] [] with
    | none => none
    | some (v, r) =>
      match skipWs r with
      | ',' :: r2 => parseJ f PMode.arre r2 [] (accA ++ [v])
      | ']' :: r2 => some (Json.arr (accA ++ [v]), r2)
      | _ => none

-- `json.loads`: parse one value and require only whitespace to remain.
def parseJson (s : List Char) : Option Json :=
  match parseJ (2 * s.length + 4) PMode.val s [] [] with
  | none => none
  | some (j, r) => if skipWs r = [] then some j else none

-- ## Python-style access used by the result-extraction step

inductive PyErr where
  | keyError : PyErr
  | indexError : PyErr
  | typeError : PyErr
  | jsonError : PyErr
  | runtimeError : PyErr
  | clientError : PyErr
deriving DecidableEq

def lookupField : List (List Char × Json) → List Char → Option Json
  | [], _ => none
  | (k', v) :: rest, k => if k' = k then some v else lookupField rest k

-- `d[key]` on the result of json.loads: KeyError when the key is absent,
-- TypeError when subscripting a non-object with a string key.
def pyGetField (j : Json) (k : List Char) : Except PyErr Json :=
  match j with
  | Json.obj fs =>
    match lookupField fs k with
    | some v => Except.ok v
    | none => Except.error PyErr.keyError
  | _ => Except.error PyErr.typeError

-- `l[i]`: IndexError past the end, TypeError when indexing a non-array.
def pyIndex (j : Json) (i : Nat) : Except PyErr Json :=
  match j with
  | Json.arr xs =>
    match xs.get? i with
    | some v => Except.ok v
    | none => Except.error PyErr.indexError
  | _ => Except.error PyErr.typeError

-- `parsed["results"]["transcripts"][0]["transcript"]` from line 87.
def extractPath (j : Json) : Except PyErr Json :=
  (pyGetField j "results".data).bind (fun r =>
    (pyGetField r "transcripts".data).bind (fun ts =>
      (pyIndex ts 0).bind (fun t0 =>
        pyGetField t0 "transcript".data)))

-- Lines 81-87: the file is read back in full (concatenating its lines
-- reproduces the content unchanged), parsed as JSON, and the transcript
-- field is returned; `json.loads` failures surface as a parse error.
def extractTranscript (content : List Char) : Except PyErr Json :=
  match parseJson content with
  | none => Except.error PyErr.jsonError
  | some j => extractPath j


-- ## The transcription workflow (upload_and_retrieve, lines 10-87)

-- The cloud provider as seen by one invocation: the outcome of the
-- create-bucket call (an error message, or none on success), whether the
-- i-th download attempt of the output object succeeds, the content of the
-- downloaded file once it does, and the Unix timestamp `int(time.time())`
-- read when the job name is built.
structure Env where
  createBucketError : Option (List Char)
  downloadOk : Nat → Bool
  fileContent : List Char
  now : Nat

-- The keyword arguments of `start_transcription_job` (lines 60-67).
structure JobParams where
  TranscriptionJobName : List Char
  LanguageCode : String
  MediaFormat : String
  Settings : List (String × List Char)
  MediaFileUri : List Char
  OutputBucketName : List Char
  OutputKey : List Char
deriving DecidableEq

-- Everything one invocation did: warnings logged by the bucket handler,
-- uploads performed (bucket, key), jobs submitted, the settings dicts
-- passed to logging.debug, failed download attempts with their sleeps,
-- the local path the output object is downloaded to and read from, and
-- the final outcome (`none` = the download loop is still running).
structure Trace where
  warnings : List (List Char)
  uploads : List (List Char × List Char)
  jobs : List JobParams
  debugLogs : List (List (String × List Char))
  failedDownloads : Nat
  sleeps : List Nat
  downloadTarget : Option (List Char)
  result : Option (Except PyErr Json)

-- Lines 53-57: the local `settings` dict receives the vocabulary name when
-- one is supplied.  The job submission on line 63 nevertheless passes the
-- literal empty dict `Settings={}`, so this value never reaches the job.
def localSettings (vocabulary : Option (List Char)) : List (String × List Char) :=
  match vocabulary with
  | some v => [("VocabularyName", v)]
  | none => []

def s3Uri (bucket key : List Char) : List Char :=
  "s3://".data ++ bucket ++ "/".data ++ key

def txtSuffix : List Char := ".txt".data

-- `f"{file.split('.')[0]}.txt"`: both the job's OutputKey (line 66) and the
-- local download/read path (lines 74 and 81).
def outName (file : List Char) : List Char := pyFirstComp '.' file ++ txtSuffix

-- `f'transcribing_{file.split(".")[0]}_{str(int(time.time()))}'` (line 60).
def jobName (file : List Char) (now : Nat) : List Char :=
  "transcribing_".data ++ pyFirstComp '.' file ++ "_".data ++ (Nat.repr now).data

def mkJob (bucket file : List Char) (now : Nat) : JobParams :=
  { TranscriptionJobName := jobName file now
    LanguageCode := "en-US"
    MediaFormat := "flac"
    Settings := []
    MediaFileUri := s3Uri bucket file
    OutputBucketName := bucket
    OutputKey := outName file }

-- Lines 71-78: `while True: try download; break; except: log; sleep(1)`.
-- Returns (loop finished, failed attempts, sleep durations); the fuel bounds
-- how many iterations are observed, with `false` meaning the loop is still
-- running after that many iterations.
def downloadLoop (ok : Nat → Bool) : Nat → Nat → Bool × Nat × List Nat
  | _, 0 => (false, 0, [])
  | i, fuel + 1 =>
    if ok i then (true, 0, [])
    else
      let r := downloadLoop ok (i + 1) fuel
      (r.1, r.2.1 + 1, 1 :: r.2.2)

-- The workflow after the create-bucket call: upload (line 44), job
-- submission (lines 60-67), download loop (lines 71-78) and result
-- extraction (lines 81-87).
def afterBucket (env : Env) (bucket file : List Char)
    (vocabulary : Option (List Char)) (fuel : Nat)
    (warnings : List (List Char)) : Trace :=
  { warnings := warnings
    uploads := [(bucket, pyLastComp pathSep file)]
    jobs := [mkJob bucket file env.now]
    debugLogs :=
      match vocabulary with
      | some _ => [localSettings vocabulary]
      | none => []
    failedDownloads := (downloadLoop env.downloadOk 0 fuel).2.1
    sleeps := (downloadLoop env.downloadOk 0 fuel).2.2
    downloadTarget := some (outName file)
    result :=
      if (downloadLoop env.downloadOk 0 fuel).1 then
        some (extractTranscript env.fileContent)
      else none }

-- Lines 33-41: create_bucket inside try/except.  On an exception the
-- handler evaluates `re.findall(r'\((\w+)\)', str(e))[0]`; when the message
-- has a parenthesized word token it is logged as a warning and execution
-- continues, otherwise the subscript itself raises an IndexError and
-- nothing further runs.
def upload_and_retrieve (env : Env) (bucket file : List Char)
    (vocabulary : Option (List Char)) (fuel : Nat) : Trace :=
  match env.createBucketError with
  | none => afterBucket env bucket file vocabulary fuel []
  | some msg =>
    match findToken msg with
    | some tok => afterBucket env bucket file vocabulary fuel [tok]
    | none =>
      { warnings := []
        uploads := []
        jobs := []
        debugLogs := []
        failedDownloads := 0
        sleeps := []
        downloadTarget := none
        result := some (Except.error PyErr.indexError) }

-- ## The vocabulary manager (create_vocabulary and wait_for_vocabulary)

inductive VocabLog where
  | created (name : String) : VocabLog
  | createFailed (name : String) : VocabLog
deriving DecidableEq

-- The keyword arguments passed to `transcribe_client.create_vocabulary`
-- (lines 108-113): Phrases is attached when `phrases` is not None, and
-- VocabularyFileUri only when `phrases` is None and `table_uri` is not.
structure VocabArgs where
  VocabularyName : String
  LanguageCode : String
  Phrases : Option (List String)
  VocabularyFileUri : Option String
deriving DecidableEq

def buildVocabArgs (vocabulary_name language_code : String)
    (phrases : Option (List String)) (table_uri : Option String) : VocabArgs :=
  { VocabularyName := vocabulary_name
    LanguageCode := language_code
    Phrases := phrases
    VocabularyFileUri :=
      match phrases with
      | some _ => none
      | none => table_uri }

def lookupResp : List (String × String) → String → Option String
  | [], _ => none
  | (k, v) :: rest, key => if k = key then some v else lookupResp rest key

-- Lines 107-120: the client call and the success log both sit inside the
-- try block, so a response without the 'VocabularyName' key raises a
-- KeyError while building the log message; the bare except logs a failure
-- and re-raises whatever was thrown.
def create_vocabulary (vocabulary_name language_code : String)
    (client : VocabArgs → Except PyErr (List (String × String)))
    (phrases : Option (List String)) (table_uri : Option String) :
    Except PyErr (List (String × String)) × List VocabLog :=
  match client (buildVocabArgs vocabulary_name language_code phrases table_uri) with
  | Except.error e => (Except.error e, [VocabLog.createFailed vocabulary_name])
  | Except.ok resp =>
    match lookupResp resp "VocabularyName" with
    | some v => (Except.ok resp, [VocabLog.created v])
    | none => (Except.error PyErr.keyError, [VocabLog.createFailed vocabulary_name])

inductive WaitOutcome where
  | ready : WaitOutcome
  | failed : WaitOutcome
  | running : WaitOutcome
deriving DecidableEq

-- Lines 122-134: the polling loop, applied to the finite sequence of
-- states the client hands back on successive get_vocabulary calls.
-- Returns (outcome, sleep durations, number of get_vocabulary calls);
-- `running` means the loop consumed the whole observed sequence without
-- exiting.  'READY' breaks, 'FAILED' raises RuntimeError, 'PENDING' sleeps
-- 10 seconds and retries, and any other state retries with no sleep.
def wait_for_vocabulary : List String → WaitOutcome × List Nat × Nat
  | [] => (WaitOutcome.running, [], 0)
  | st :: rest =>
    if st = "READY" then (WaitOutcome.ready, [], 1)
    else if st = "FAILED" then (WaitOutcome.failed, [], 1)
    else if st = "PENDING" then
      let r := wait_for_vocabulary rest
      (r.1, 10 :: r.2.1, r.2.2 + 1)
    else
      let r := wait_for_vocabulary rest
      (r.1, r.2.1, r.2.2 + 1)

-- ## Behavior of the download loop

theorem downloadLoop_first_success (ok : Nat → Bool) :
    ∀ (N i fuel : Nat), (∀ k, k < N → ok (i + k) = false) → ok (i + N) = true →
      N < fuel → downloadLoop ok i fuel = (true, N, List.replicate N 1) := by
  intro N
  induction N with
  | zero =>
    intro i fuel _ hN hf
    cases fuel with
    | zero => omega
    | succ f =>
      have hi : ok i = true := by simpa using hN
      simp [downloadLoop, hi]
  | succ N ih =>
    intro i fuel h hN hf
    cases fuel with
    | zero => omega
    | succ f =>
      have h0 : ok i = false := by simpa using h 0 (by omega)
      have hshift : ∀ k, k < N → ok (i + 1 + k) = false := by
        intro k hk
        have h2 := h (k + 1) (by omega)
        rwa [show i + (k + 1) = i + 1 + k by omega] at h2
      have hNs : ok (i + 1 + N) = true := by
        rwa [show i + (N + 1) = i + 1 + N by omega] at hN
      have hrec := ih (i + 1) f hshift hNs (by omega)
      simp [downloadLoop, h0, hrec, List.replicate_succ]

theorem downloadLoop_never (ok : Nat → Bool) (h : ∀ k, ok k = false) :
    ∀ (fuel i : Nat), downloadLoop ok i fuel = (false, fuel, List.replicate fuel 1) := by
  intro fuel
  induction fuel with
  | zero => intro i; rfl
  | succ f ih =>
    intro i
    simp [downloadLoop, h i, ih (i + 1), List.replicate_succ]

-- ## Case analyses of the workflow trace

theorem jobs_cases (env : Env) (bucket file : List Char)
    (vocabulary : Option (List Char)) (fuel : Nat) :
    (upload_and_retrieve env bucket file vocabulary fuel).jobs = [] ∨
    (upload_and_retrieve env bucket file vocabulary fuel).jobs
      = [mkJob bucket file env.now] := by
  cases h : env.createBucketError with
  | none => right; simp [upload_and_retrieve, h, afterBucket]
  | some msg =>
    cases h2 : findToken msg with
    | none => left; simp [upload_and_retrieve, h, h2]
    | some tok => right; simp [upload_and_retrieve, h, h2, afterBucket]

theorem uploads_cases (env : Env) (bucket file : List Char)
    (vocabulary : Option (List Char)) (fuel : Nat) :
    (upload_and_retrieve env bucket file vocabulary fuel).uploads = [] ∨
    (upload_and_retrieve env bucket file vocabulary fuel).uploads
      = [(bucket, pyLastComp pathSep file)] := by
  cases h : env.createBucketError with
  | none => right; simp [upload_and_retrieve, h, afterBucket]
  | some msg =>
    cases h2 : findToken msg with
    | none => left; simp [upload_and_retrieve, h, h2]
    | some tok => right; simp [upload_and_retrieve, h, h2, afterBucket]

theorem downloadTarget_cases (env : Env) (bucket file : List Char)
    (vocabulary : Option (List Char)) (fuel : Nat) :
    (upload_and_retrieve env bucket file vocabulary fuel).downloadTarget = none ∨
    (upload_and_retrieve env bucket file vocabulary fuel).downloadTarget
      = some (outName file) := by
  cases h : env.createBucketError with
  | none => right; simp [upload_and_retrieve, h, afterBucket]
  | some msg =>
    cases h2 : findToken msg with
    | none => left; simp [upload_and_retrieve, h, h2]
    | some tok => right; simp [upload_and_retrieve, h, h2, afterBucket]

theorem pyFirstComp_dot_eq_specStem (s : List Char) :
    pyFirstComp '.' s = specStem s :=
  pyFirstComp_eq_takeWhile '.' s

-- ## Claims

/-- C1 (code bug in the source): the local settings dict built on lines
53-55 receives the vocabulary name, but `start_transcription_job` is called
with the literal empty dict `Settings={}` on line 63, so every submitted
job carries empty advanced settings — together with the fixed language code
en-US and media format flac — even when a vocabulary is supplied. -/
theorem job_settings_always_empty (env : Env) (bucket file : List Char)
    (vocabulary : Option (List Char)) (fuel : Nat) :
    localSettings (some "custom".data) = [("VocabularyName", "custom".data)] ∧
    (upload_and_retrieve env bucket file vocabulary fuel).jobs.map JobParams.Settings
      = List.replicate
          (upload_and_retrieve env bucket file vocabulary fuel).jobs.length [] ∧
    (upload_and_retrieve env bucket file vocabulary fuel).jobs.map JobParams.LanguageCode
      = List.replicate
          (upload_and_retrieve env bucket file vocabulary fuel).jobs.length "en-US" ∧
    (upload_and_retrieve env bucket file vocabulary fuel).jobs.map JobParams.MediaFormat
      = List.replicate
          (upload_and_retrieve env bucket file vocabulary fuel).jobs.length "flac" := by
  refine ⟨rfl, ?_, ?_, ?_⟩ <;>
    rcases jobs_cases env bucket file vocabulary fuel with h | h <;>
      rw [h] <;> simp [mkJob]

/-- C3: on the response state sequence PENDING, PENDING, READY the
wait-for-vocabulary loop sleeps exactly twice, 10 seconds each, and returns
normally after its third get-vocabulary call; whenever the next observed
state is FAILED the loop raises at once, after that single call, with no
further call and no sleep. -/
theorem wait_for_vocabulary_pending_ready_failed :
    (∀ rest : List String,
      wait_for_vocabulary ("PENDING" :: "PENDING" :: "READY" :: rest)
        = (WaitOutcome.ready, [10, 10], 3)) ∧
    (∀ rest : List String,
      wait_for_vocabulary ("FAILED" :: rest) = (WaitOutcome.failed, [], 1)) := by
  constructor
  · intro rest; rfl
  · intro rest; rfl

/-- C8: when every fetched vocabulary state is unrecognized (neither READY
nor FAILED nor PENDING), the loop neither exits nor sleeps: it consumes the
whole observed response sequence, one get-vocabulary call per element, with
an empty sleep list, and is still running at the end. -/
theorem wait_for_vocabulary_unrecognized_busy_polls (states : List String)
    (h : ∀ st ∈ states, st ≠ "READY" ∧ st ≠ "FAILED" ∧ st ≠ "PENDING") :
    wait_for_vocabulary states = (WaitOutcome.running, [], states.length) := by
  induction states with
  | nil => rfl
  | cons st rest ih =>
    obtain ⟨h1, h2, h3⟩ := h st (by simp)
    have hrec := ih (fun s hs => h s (by simp [hs]))
    simp [wait_for_vocabulary, h1, h2, h3, hrec]

theorem wait_for_vocabulary_unrecognized_witness :
    wait_for_vocabulary ["UPDATING", "DELETING"] = (WaitOutcome.running, [], 2) :=
  wait_for_vocabulary_unrecognized_busy_polls ["UPDATING", "DELETING"] (by decide)

/-- C5: the key the file is uploaded under is the trailing path-separator
component of the input path (the source splits on the backslash, its path
separator): whenever an upload happens its key is `baseName pathSep file`. -/
theorem upload_key_is_base_name (file : List Char) :
    pyLastComp pathSep file = baseName pathSep file ∧
    ∀ (env : Env) (bucket : List Char) (vocabulary : Option (List Char)) (fuel : Nat),
      (upload_and_retrieve env bucket file vocabulary fuel).uploads.map Prod.snd
        = List.replicate
            (upload_and_retrieve env bucket file vocabulary fuel).uploads.length
            (baseName pathSep file) := by
  constructor
  · exact pyLastComp_eq_baseName pathSep file
  · intro env bucket vocabulary fuel
    rcases uploads_cases env bucket file vocabulary fuel with h | h <;>
      rw [h] <;> simp [pyLastComp_eq_baseName]

/-- C2: the job's S3 output key and the local output path are both derived
as the substring of the input file name before its first '.' concatenated
with ".txt", and the derivation depends only on that stem, so same-stemmed
inputs produce the identical key and path. -/
theorem output_key_and_path_from_stem (file : List Char) :
    outName file = specStem file ++ txtSuffix ∧
    (∀ (env : Env) (bucket : List Char) (vocabulary : Option (List Char)) (fuel : Nat),
      (upload_and_retrieve env bucket file vocabulary fuel).jobs.map JobParams.OutputKey
        = List.replicate
            (upload_and_retrieve env bucket file vocabulary fuel).jobs.length
            (specStem file ++ txtSuffix) ∧
      ((upload_and_retrieve env bucket file vocabulary fuel).downloadTarget = none ∨
       (upload_and_retrieve env bucket file vocabulary fuel).downloadTarget
         = some (specStem file ++ txtSuffix))) ∧
    (∀ g : List Char, specStem g = specStem file → outName g = outName file) := by
  have hout : ∀ s : List Char, outName s = specStem s ++ txtSuffix := by
    intro s
    simp only [outName, pyFirstComp_dot_eq_specStem]
  refine ⟨hout file, ?_, ?_⟩
  · intro env bucket vocabulary fuel
    constructor
    · rcases jobs_cases env bucket file vocabulary fuel with h | h <;>
        rw [h] <;> simp [mkJob, hout file]
    · rcases downloadTarget_cases env bucket file vocabulary fuel with h | h
      · left; exact h
      · right; rw [h, hout file]
  · intro g hg
    rw [hout g, hout file, hg]

theorem output_key_same_stem_witness :
    outName "a.b".data = outName "a.flac".data :=
  (output_key_and_path_from_stem "a.flac".data).2.2 "a.b".data (by decide)

/-- C9: the media URI submitted with the transcription job is
s3://bucket/file built from the full input path, and whenever the path
contains the path separator this differs from s3://bucket/key, the location
the file was actually uploaded to. -/
theorem media_uri_from_full_path (bucket file : List Char) :
    (∀ (env : Env) (vocabulary : Option (List Char)) (fuel : Nat),
      (upload_and_retrieve env bucket file vocabulary fuel).jobs.map JobParams.MediaFileUri
        = List.replicate
            (upload_and_retrieve env bucket file vocabulary fuel).jobs.length
            (s3Uri bucket file)) ∧
    (pathSep ∈ file → s3Uri bucket file ≠ s3Uri bucket (pyLastComp pathSep file)) := by
  constructor
  · intro env vocabulary fuel
    rcases jobs_cases env bucket file vocabulary fuel with h | h <;>
      rw [h] <;> simp [mkJob]
  · intro hmem heq
    simp only [s3Uri] at heq
    have h3 := List.append_cancel_left heq
    rw [pyLastComp_eq_baseName] at h3
    rw [h3] at hmem
    exact sep_not_mem_baseName pathSep file hmem

theorem media_uri_witness :
    s3Uri "bkt".data "dir\\a.flac".data
      ≠ s3Uri "bkt".data (pyLastComp pathSep "dir\\a.flac".data) :=
  (media_uri_from_full_path "bkt".data "dir\\a.flac".data).2 (by decide)

/-- C4 counterexample: a create-bucket error whose message is "boom" holds
no parenthesized word token, so `re.findall(r'\((\w+)\)', str(e))[0]` in the
handler raises an IndexError itself: the workflow stops before the upload
instead of continuing, refuting the claim that every creation error is
swallowed and execution always proceeds to the upload. -/
theorem bucket_error_counterexample :
    (upload_and_retrieve ⟨some "boom".data, fun _ => true, [], 0⟩
        "b".data "a.flac".data none 1).uploads = [] ∧
    (upload_and_retrieve ⟨some "boom".data, fun _ => true, [], 0⟩
        "b".data "a.flac".data none 1).result
      = some (Except.error PyErr.indexError) := by
  constructor <;> rfl

/-- C4 (amended): a create-bucket error whose message contains a
parenthesized word token is swallowed — the token is logged as a warning
and execution continues to the upload step; when the message has no such
token, the handler itself raises an IndexError and the upload is never
reached. -/
theorem bucket_error_handling (env : Env) (bucket file : List Char)
    (vocabulary : Option (List Char)) (fuel : Nat) (msg : List Char)
    (hmsg : env.createBucketError = some msg) :
    (∀ tok, findToken msg = some tok →
      (upload_and_retrieve env bucket file vocabulary fuel).warnings = [tok] ∧
      (upload_and_retrieve env bucket file vocabulary fuel).uploads
        = [(bucket, pyLastComp pathSep file)]) ∧
    (findToken msg = none →
      (upload_and_retrieve env bucket file vocabulary fuel).uploads = [] ∧
      (upload_and_retrieve env bucket file vocabulary fuel).result
        = some (Except.error PyErr.indexError)) := by
  constructor
  · intro tok htok
    constructor <;> simp [upload_and_retrieve, hmsg, htok, afterBucket]
  · intro hnone
    constructor <;> simp [upload_and_retrieve, hmsg, hnone]

theorem bucket_error_witness :
    (upload_and_retrieve
        ⟨some "error (NoSuchBucket) occurred".data, fun _ => true, [], 0⟩
        "b".data "a.flac".data none 1).warnings = ["NoSuchBucket".data] ∧
    (upload_and_retrieve
        ⟨some "error (NoSuchBucket) occurred".data, fun _ => true, [], 0⟩
        "b".data "a.flac".data none 1).uploads
      = [("b".data, "a.flac".data)] :=
  (bucket_error_handling
      ⟨some "error (NoSuchBucket) occurred".data, fun _ => true, [], 0⟩
      "b".data "a.flac".data none 1 "error (NoSuchBucket) occurred".data rfl).1
    "NoSuchBucket".data (by decide)

/-- C6: with bucket creation succeeding, if the download of the output
object fails on the first N attempts and succeeds on attempt N+1, the loop
performs exactly N failed attempts, each followed by a one-second sleep,
and finishes by extracting the downloaded content; if the download fails on
every attempt the loop never finishes: after any number of observed
iterations it has that many failures, that many one-second sleeps, and no
result. -/
theorem download_polling (env : Env) (bucket file : List Char)
    (vocabulary : Option (List Char)) (N : Nat)
    (hb : env.createBucketError = none) :
    ((∀ k, k < N → env.downloadOk k = false) → env.downloadOk N = true →
      ∀ fuel, N < fuel →
        (upload_and_retrieve env bucket file vocabulary fuel).failedDownloads = N ∧
        (upload_and_retrieve env bucket file vocabulary fuel).sleeps
          = List.replicate N 1 ∧
        (upload_and_retrieve env bucket file vocabulary fuel).result
          = some (extractTranscript env.fileContent)) ∧
    ((∀ k, env.downloadOk k = false) → ∀ fuel,
        (upload_and_retrieve env bucket file vocabulary fuel).failedDownloads = fuel ∧
        (upload_and_retrieve env bucket file vocabulary fuel).sleeps
          = List.replicate fuel 1 ∧
        (upload_and_retrieve env bucket file vocabulary fuel).result = none) := by
  constructor
  · intro h1 h2 fuel hf
    have hloop := downloadLoop_first_success env.downloadOk N 0 fuel
      (fun k hk => by simpa using h1 k hk) (by simpa using h2) hf
    refine ⟨?_, ?_, ?_⟩ <;> simp [upload_and_retrieve, hb, afterBucket, hloop]
  · intro h fuel
    have hloop := downloadLoop_never env.downloadOk h fuel 0
    refine ⟨?_, ?_, ?_⟩ <;> simp [upload_and_retrieve, hb, afterBucket, hloop]

theorem download_polling_witness :
    (upload_and_retrieve ⟨none, fun k => decide (k = 2), [], 0⟩
        [] [] none 4).failedDownloads = 2 ∧
    (upload_and_retrieve ⟨none, fun k => decide (k = 2), [], 0⟩
        [] [] none 4).sleeps = [1, 1] ∧
    (upload_and_retrieve ⟨none, fun k => decide (k = 2), [], 0⟩
        [] [] none 4).result = some (Except.error PyErr.jsonError) ∧
    (upload_and_retrieve ⟨none, fun _ => false, [], 0⟩ [] [] none 3).result
      = none := by
  have h1 := (download_polling ⟨none, fun k => decide (k = 2), [], 0⟩
      [] [] none 2 rfl).1
    (by intro k hk; interval_cases k <;> rfl) (by rfl) 4 (by omega)
  have h2 := (download_polling ⟨none, fun _ => false, [], 0⟩
      [] [] none 0 rfl).2 (fun _ => rfl) 3
  exact ⟨h1.1, h1.2.1, h1.2.2, h2.2.2⟩

/-- C7: when the downloaded output file contains the transcript envelope
for "hello world", the result-extraction step of the workflow returns
exactly that string; in general, on every well-formed envelope the
extraction returns the value at results.transcripts[0].transcript. -/
theorem transcript_extraction (bucket file : List Char)
    (vocabulary : Option (List Char)) :
    (upload_and_retrieve
        ⟨none, fun _ => true,
          "\x7b\"results\":\x7b\"transcripts\":[\x7b\"transcript\":\"hello world\"\x7d]\x7d\x7d".data,
          0⟩ bucket file vocabulary 1).result
      = some (Except.ok (Json.str "hello world".data)) ∧
    ∀ (fs1 fs2 fs3 : List (List Char × Json)) (rest : List Json) (t : List Char),
      extractPath
        (Json.obj (("results".data,
          Json.obj (("transcripts".data,
            Json.arr (Json.obj (("transcript".data, Json.str t) :: fs3)
              :: rest)) :: fs2)) :: fs1))
        = Except.ok (Json.str t) := by
  constructor
  · rfl
  · intro fs1 fs2 fs3 rest t
    rfl

/-- C10: create_vocabulary attaches Phrases exactly when phrases is
supplied (taking precedence over table_uri, which is only sent when phrases
is absent, and neither is sent when both are absent); a client error is
logged as a failure and re-raised; a successful response is returned — with
its vocabulary name logged — only when it contains the VocabularyName key,
and a response lacking that key raises a KeyError after the failure log. -/
theorem create_vocabulary_behavior (vocabulary_name language_code : String)
    (client : VocabArgs → Except PyErr (List (String × String)))
    (phrases : Option (List String)) (table_uri : Option String) :
    (∀ ps, phrases = some ps →
      (buildVocabArgs vocabulary_name language_code phrases table_uri).Phrases
        = some ps ∧
      (buildVocabArgs vocabulary_name language_code phrases table_uri).VocabularyFileUri
        = none) ∧
    (phrases = none → table_uri = none →
      (buildVocabArgs vocabulary_name language_code phrases table_uri).Phrases
        = none ∧
      (buildVocabArgs vocabulary_name language_code phrases table_uri).VocabularyFileUri
        = none) ∧
    (∀ e, client (buildVocabArgs vocabulary_name language_code phrases table_uri)
        = Except.error e →
      create_vocabulary vocabulary_name language_code client phrases table_uri
        = (Except.error e, [VocabLog.createFailed vocabulary_name])) ∧
    (∀ resp, client (buildVocabArgs vocabulary_name language_code phrases table_uri)
        = Except.ok resp →
      (∀ v, lookupResp resp "VocabularyName" = some v →
        create_vocabulary vocabulary_name language_code client phrases table_uri
          = (Except.ok resp, [VocabLog.created v])) ∧
      (lookupResp resp "VocabularyName" = none →
        create_vocabulary vocabulary_name language_code client phrases table_uri
          = (Except.error PyErr.keyError,
             [VocabLog.createFailed vocabulary_name]))) := by
  refine ⟨?_, ?_, ?_, ?_⟩
  · intro ps hps
    subst hps
    exact ⟨rfl, rfl⟩
  · intro h1 h2
    subst h1
    subst h2
    exact ⟨rfl, rfl⟩
  · intro e he
    simp [create_vocabulary, he]
  · intro resp hresp
    constructor
    · intro v hv
      simp [create_vocabulary, hresp, hv]
    · intro hv
      simp [create_vocabulary, hresp, hv]

theorem create_vocabulary_witness :
    (buildVocabArgs "v" "en-US" (some ["p"]) (some "u")).Phrases = some ["p"] ∧
    (buildVocabArgs "v" "en-US" (some ["p"]) (some "u")).VocabularyFileUri = none ∧
    (buildVocabArgs "v" "en-US" none none).VocabularyFileUri = none ∧
    create_vocabulary "v" "en-US"
        (fun _ => Except.ok [("VocabularyName", "w")]) (some ["p"]) (some "u")
      = (Except.ok [("VocabularyName", "w")], [VocabLog.created "w"]) ∧
    create_vocabulary "v" "en-US"
        (fun _ => Except.error PyErr.clientError) none none
      = (Except.error PyErr.clientError, [VocabLog.createFailed "v"]) ∧
    create_vocabulary "v" "en-US" (fun _ => Except.ok []) none none
      = (Except.error PyErr.keyError, [VocabLog.createFailed "v"]) := by
  refine ⟨?_, ?_, ?_, ?_, ?_, ?_⟩
  · exact ((create_vocabulary_behavior "v" "en-US"
      (fun _ => Except.ok [("VocabularyName", "w")]) (some ["p"]) (some "u")).1
      ["p"] rfl).1
  · exact ((create_vocabulary_behavior "v" "en-US"
      (fun _ => Except.ok [("VocabularyName", "w")]) (some ["p"]) (some "u")).1
      ["p"] rfl).2
  · exact ((create_vocabulary_behavior "v" "en-US"
      (fun _ => Except.ok []) none none).2.1 rfl rfl).2
  · exact ((create_vocabulary_behavior "v" "en-US"
      (fun _ => Except.ok [("VocabularyName", "w")]) (some ["p"]) (some "u")).2.2.2
      [("VocabularyName", "w")] rfl).1 "w" rfl
  · exact (create_vocabulary_behavior "v" "en-US"
      (fun _ => Except.error PyErr.clientError) none none).2.2.1
      PyErr.clientError rfl
  · exact ((create_vocabulary_behavior "v" "en-US"
      (fun _ => Except.ok []) none none).2.2.2 [] rfl).2 rfl
